import Mathlib

/-!
Shallow embedding of the TON Access MCP resolver from
src/ton-access-mcp.ts, together with the components the repository
describes only in prose documentation (the fleet staleness policy and
the weighted random selector), which are modelled from the spec where
the TypeScript implementation ships placeholders.

Conventions: TypeScript optional fields become Option; an async method
that can throw becomes a function into Except; JS defaulting with the
logical-or operator (which also replaces the falsy values "" and 0)
is embedded by orDefaultStr / orDefaultNat.
-/

/-- Network types supported by ton-access (source: type Network). -/
inductive Network where
  | mainnet
  | testnet
deriving DecidableEq, Repr

/-- String label of a network, as it appears in built URLs. -/
def Network.label : Network → String
  | .mainnet => "mainnet"
  | .testnet => "testnet"

/-- Protocol format options (source: type ProtocolFormat =
"default" | "json-rpc" | "rest"). -/
inductive ProtocolFormat where
  | default
  | jsonRpc
  | rest
deriving DecidableEq, Repr

/-- Configuration for ton-access endpoints (source: interface
TonAccessConfig); every field is optional in TypeScript. -/
structure TonAccessConfig where
  network : Option Network := none
  host : Option String := none
  accessVersion : Option Nat := none
  protocol : Option ProtocolFormat := none
deriving DecidableEq, Repr

/-- JS defaulting for an optional string: in x || d the empty
string is falsy, so it is replaced by the default as well. -/
def orDefaultStr : Option String → String → String
  | some s, d => if s = "" then d else s
  | none, d => d

/-- JS defaulting for an optional number: in x || d the number 0 is
falsy, so it is replaced by the default as well. -/
def orDefaultNat : Option Nat → Nat → Nat
  | some n, d => if n = 0 then d else n
  | none, d => d

/-- Manager information of a node (source: the Mngr field of
interface TonAccessNode). -/
structure NodeMngr where
  updated : String
  health : List (String × Bool)
  successTS : Nat
  errors : List String
  code : Nat
  text : String
deriving DecidableEq, Repr

/-- Node information (source: interface TonAccessNode). -/
structure TonAccessNode where
  NodeId : String
  BackendName : String
  Ip : String
  Weight : Nat
  Healthy : String
  Mngr : NodeMngr
deriving DecidableEq, Repr

/-- Result from the ADNL proxy endpoint (source: interface
AdnlProxyEndpointResult). -/
structure AdnlProxyEndpointResult where
  endpoint : String
  publicKey : String
deriving DecidableEq, Repr

/-- Error raised by the v4 operations; the source throws a plain
Error whose message is the string below, which the spec's taxonomy
names UnsupportedProtocolError. -/
inductive TonAccessError where
  | unsupportedProtocol (msg : String)
deriving DecidableEq, Repr

/-- The exact message of the error thrown by getHttpV4Endpoint and
getHttpV4Endpoints when config.protocol is "json-rpc". -/
def v4UnsupportedMsg : String :=
  "config.protocol json-rpc is not supported for getTonApiV4Endpoints"

/-- Source: TonAccessMCP.getHttpEndpoint.  Builds the toncenter-api-v2
URL from the config; the node id slot holds the literal placeholder
string of the source. -/
def getHttpEndpoint (config : TonAccessConfig) : String :=
  let network := (config.network.getD Network.mainnet).label
  let protocol := if config.protocol = some ProtocolFormat.rest then "" else "jsonRPC"
  let host := orDefaultStr config.host "ton.access.orbs.network"
  let version := orDefaultNat config.accessVersion 1
  "https://" ++ host ++ "/[node-id]/" ++ toString version ++ "/" ++ network
    ++ "/toncenter-api-v2/" ++ protocol

/-- Source: TonAccessMCP.getHttpEndpoints.  With single set it wraps
getHttpEndpoint in a one-element list; otherwise it returns the three
placeholder node URLs of the source. -/
def getHttpEndpoints (config : TonAccessConfig) (single : Bool) : List String :=
  if single then
    [getHttpEndpoint config]
  else
    let network := (config.network.getD Network.mainnet).label
    let protocol := if config.protocol = some ProtocolFormat.rest then "" else "jsonRPC"
    let host := orDefaultStr config.host "ton.access.orbs.network"
    let version := orDefaultNat config.accessVersion 1
    ["https://" ++ host ++ "/node1/" ++ toString version ++ "/" ++ network
        ++ "/toncenter-api-v2/" ++ protocol,
     "https://" ++ host ++ "/node2/" ++ toString version ++ "/" ++ network
        ++ "/toncenter-api-v2/" ++ protocol,
     "https://" ++ host ++ "/node3/" ++ toString version ++ "/" ++ network
        ++ "/toncenter-api-v2/" ++ protocol]

/-- Source: TonAccessMCP.getHttpV4Endpoint.  Throws (here: returns an
error) when config.protocol is "json-rpc", before anything else; the
body performs no fetch at all. -/
def getHttpV4Endpoint (config : TonAccessConfig) : Except TonAccessError String :=
  if config.protocol = some ProtocolFormat.jsonRpc then
    Except.error (TonAccessError.unsupportedProtocol v4UnsupportedMsg)
  else
    let network := (config.network.getD Network.mainnet).label
    let host := orDefaultStr config.host "ton.access.orbs.network"
    let version := orDefaultNat config.accessVersion 1
    Except.ok ("https://" ++ host ++ "/[node-id]/" ++ toString version ++ "/" ++ network
      ++ "/ton-api-v4")

/-- Source: TonAccessMCP.getHttpV4Endpoints.  Performs the same
json-rpc check first; with single set it delegates to
getHttpV4Endpoint, else it returns the three placeholder URLs. -/
def getHttpV4Endpoints (config : TonAccessConfig) (single : Bool) :
    Except TonAccessError (List String) :=
  if config.protocol = some ProtocolFormat.jsonRpc then
    Except.error (TonAccessError.unsupportedProtocol v4UnsupportedMsg)
  else if single then
    (getHttpV4Endpoint config).map (fun e => [e])
  else
    let network := (config.network.getD Network.mainnet).label
    let host := orDefaultStr config.host "ton.access.orbs.network"
    let version := orDefaultNat config.accessVersion 1
    Except.ok
      ["https://" ++ host ++ "/node1/" ++ toString version ++ "/" ++ network
          ++ "/ton-api-v4",
       "https://" ++ host ++ "/node2/" ++ toString version ++ "/" ++ network
          ++ "/ton-api-v4",
       "https://" ++ host ++ "/node3/" ++ toString version ++ "/" ++ network
          ++ "/ton-api-v4"]

/-- Source: TonAccessMCP.getAdnlProxyEndpoint.  A constant record in
the source; it reads no state and takes no arguments. -/
def getAdnlProxyEndpoint : AdnlProxyEndpointResult :=
  { endpoint := "ws://[node-ip]:30001", publicKey := "sample-public-key" }

/-- Source: TonAccessMCP.getAdnlProxyEndpoints. -/
def getAdnlProxyEndpoints : List String :=
  ["ws://node1-ip:30001", "ws://node2-ip:30001", "ws://node3-ip:30001"]

/-- Modelled from the spec: the Fleet Fetcher's staleness threshold of
10 minutes (in milliseconds); the repository documents it in prose
only, no fetcher code ships under src. -/
def stalenessThresholdMs : Nat := 10 * 60 * 1000

/-- Modelled from the spec: a fleet snapshot, the node list together
with the instant (ms) it was retrieved; no fetcher code ships under
src. -/
structure FleetSnapshot where
  nodes : List TonAccessNode
  fetchedAt : Nat
deriving DecidableEq, Repr

/-- Modelled from the spec: the Fleet Fetcher's failure when the
manager is unreachable or returns malformed data. -/
inductive FetchError where
  | fetchFailed (msg : String)
deriving DecidableEq, Repr

/-- Modelled from the spec: the resolution-level failure raised when
the cached snapshot is past the staleness threshold and the refresh
failed. -/
inductive ResolveError where
  | allNodesStale
deriving DecidableEq, Repr

/-- Modelled from the spec: the caching policy of the Fleet Fetcher.
Resolution checks now minus fetchedAt against the staleness
threshold; if exceeded, a refresh (whose outcome is passed in) is
attempted: a successful refresh supplies the new snapshot, a failed
one makes resolution fail with AllNodesStaleError.  Within the
threshold the cached snapshot is served. -/
def resolveSnapshot (cached : FleetSnapshot) (now : Nat)
    (refresh : Except FetchError FleetSnapshot) : Except ResolveError FleetSnapshot :=
  if stalenessThresholdMs < now - cached.fetchedAt then
    match refresh with
    | Except.ok s => Except.ok s
    | Except.error _ => Except.error ResolveError.allNodesStale
  else
    Except.ok cached

/-- Modelled from the spec: the Weighted Selector's total weight of a
candidate set; no selector code ships under src. -/
def totalWeight (candidates : List TonAccessNode) : Nat :=
  (candidates.map (fun n => n.Weight)).sum

/-- Modelled from the spec: the walk of the Weighted Selector, which
accumulates candidate weights until the running sum exceeds the
draw and selects the node at that point. -/
def walkPick : List TonAccessNode → Nat → Nat → Option TonAccessNode
  | [], _, _ => none
  | n :: rest, acc, draw =>
    if draw < acc + n.Weight then some n
    else walkPick rest (acc + n.Weight) draw

/-- Modelled from the spec: the Weighted Selector's single pick.  When
the total weight is zero, selection is uniform over the candidates
(the random value indexes them directly); otherwise the random value
is reduced to a draw in the interval from 0 up to the total weight
and the weighted walk runs. -/
def pickOne (candidates : List TonAccessNode) (r : Nat) : Option TonAccessNode :=
  let tw := totalWeight candidates
  if tw = 0 then
    candidates[r % candidates.length]?
  else
    walkPick candidates 0 (r % tw)

/-- Sum of the weights of the first i candidates; the running
accumulated weight of the walk written declaratively. -/
def weightUpTo (candidates : List TonAccessNode) (i : Nat) : Nat :=
  totalWeight (candidates.take i)

/-- A concrete node used to evaluate theorems on explicit inputs. -/
def sampleNode (id : String) (w : Nat) : TonAccessNode :=
  { NodeId := id, BackendName := "backend", Ip := "1.2.3.4", Weight := w,
    Healthy := "1",
    Mngr := { updated := "", health := [], successTS := 0, errors := [],
              code := 200, text := "OK" } }

/-- C1: with protocol json-rpc, getHttpV4Endpoint and
getHttpV4Endpoints both fail with the UnsupportedProtocolError
message, unconditionally and as the very first step; the embedded
bodies perform no fetch or other work at all, so the result is
exactly this error for every config and every value of single. -/
theorem v4_jsonrpc_fail_fast (c : TonAccessConfig) (single : Bool)
    (h : c.protocol = some ProtocolFormat.jsonRpc) :
    getHttpV4Endpoint c = Except.error (TonAccessError.unsupportedProtocol v4UnsupportedMsg)
    ∧ getHttpV4Endpoints c single
        = Except.error (TonAccessError.unsupportedProtocol v4UnsupportedMsg) := by
  constructor <;> simp [getHttpV4Endpoint, getHttpV4Endpoints, h]

/-- Witness for C1 at a concrete json-rpc config. -/
theorem v4_jsonrpc_fail_fast_witness :
    getHttpV4Endpoint ⟨none, none, none, some ProtocolFormat.jsonRpc⟩
        = Except.error (TonAccessError.unsupportedProtocol v4UnsupportedMsg)
    ∧ getHttpV4Endpoints ⟨none, none, none, some ProtocolFormat.jsonRpc⟩ false
        = Except.error (TonAccessError.unsupportedProtocol v4UnsupportedMsg) :=
  v4_jsonrpc_fail_fast ⟨none, none, none, some ProtocolFormat.jsonRpc⟩ false rfl

/-- C4: getHttpEndpoints with single set returns a list of length
exactly 1 whose sole element is getHttpEndpoint of the same config. -/
theorem httpEndpoints_single_eq (c : TonAccessConfig) :
    (getHttpEndpoints c true).length = 1
    ∧ getHttpEndpoints c true = [getHttpEndpoint c] := by
  constructor <;> simp [getHttpEndpoints]

/-- C5: for a snapshot fetched at time fetchedAt, a resolution 11
minutes later whose refresh fails yields AllNodesStaleError, while a
resolution 9 minutes later whose refresh fails still succeeds with
the cached snapshot. -/
theorem staleness_policy (s : FleetSnapshot) (e : FetchError) :
    resolveSnapshot s (s.fetchedAt + 11 * 60 * 1000) (Except.error e)
        = Except.error ResolveError.allNodesStale
    ∧ resolveSnapshot s (s.fetchedAt + 9 * 60 * 1000) (Except.error e)
        = Except.ok s := by
  constructor <;>
    simp [resolveSnapshot, stalenessThresholdMs, Nat.add_sub_cancel_left]

/-- C7: for every config whose protocol is not json-rpc, the v4 URL
ends in the protocol segment ton-api-v4 with no suffix segment after
it. -/
theorem v4_url_ends_with_protocol (c : TonAccessConfig)
    (h : c.protocol ≠ some ProtocolFormat.jsonRpc) :
    ∃ p, getHttpV4Endpoint c = Except.ok (p ++ "/ton-api-v4") := by
  refine ⟨"https://" ++ orDefaultStr c.host "ton.access.orbs.network" ++ "/[node-id]/"
      ++ toString (orDefaultNat c.accessVersion 1) ++ "/"
      ++ (c.network.getD Network.mainnet).label, ?_⟩
  simp [getHttpV4Endpoint, h]

/-- Witness for C7 at the empty config. -/
theorem v4_url_ends_with_protocol_witness :
    ∃ p, getHttpV4Endpoint ⟨none, none, none, none⟩ = Except.ok (p ++ "/ton-api-v4") :=
  v4_url_ends_with_protocol ⟨none, none, none, none⟩ (by simp)

/-- C10: the façade is deterministic: getHttpEndpoint returns equal
URLs for equal configs, and getAdnlProxyEndpoint is the same fixed
endpoint and publicKey record on every call. -/
theorem facade_deterministic (c₁ c₂ : TonAccessConfig) (h : c₁ = c₂) :
    getHttpEndpoint c₁ = getHttpEndpoint c₂
    ∧ getAdnlProxyEndpoint
        = { endpoint := "ws://[node-ip]:30001", publicKey := "sample-public-key" } := by
  subst h
  exact ⟨rfl, rfl⟩

/-- Witness for C10 at a concrete pair of equal configs. -/
theorem facade_deterministic_witness :
    getHttpEndpoint ⟨none, none, none, none⟩ = getHttpEndpoint ⟨none, none, none, none⟩
    ∧ getAdnlProxyEndpoint
        = { endpoint := "ws://[node-ip]:30001", publicKey := "sample-public-key" } :=
  facade_deterministic ⟨none, none, none, none⟩ ⟨none, none, none, none⟩ rfl

/-- C2: the URL built by getHttpEndpoint has the shape
https:// host / node-id / version / network /toncenter-api-v2/ suffix,
where the node id slot holds the source's placeholder, an omitted
host defaults to ton.access.orbs.network, an omitted accessVersion
defaults to 1, an omitted network defaults to mainnet, and the
suffix is jsonRPC whenever the protocol format is not rest. -/
theorem httpEndpoint_url_shape (c : TonAccessConfig) :
    ∃ (host : String) (version : Nat) (network suffix : String),
      getHttpEndpoint c =
        "https://" ++ host ++ "/[node-id]/" ++ toString version ++ "/" ++ network
          ++ "/toncenter-api-v2/" ++ suffix
      ∧ (c.host = none → host = "ton.access.orbs.network")
      ∧ (c.accessVersion = none → version = 1)
      ∧ (c.network = none → network = "mainnet")
      ∧ (c.protocol ≠ some ProtocolFormat.rest → suffix = "jsonRPC") := by
  refine ⟨orDefaultStr c.host "ton.access.orbs.network",
      orDefaultNat c.accessVersion 1,
      (c.network.getD Network.mainnet).label,
      if c.protocol = some ProtocolFormat.rest then "" else "jsonRPC",
      rfl, ?_, ?_, ?_, ?_⟩
  · intro h
    simp [h, orDefaultStr]
  · intro h
    simp [h, orDefaultNat]
  · intro h
    simp [h, Network.label]
  · intro h
    simp [h]

/-- Witness for C2 at the empty config. -/
theorem httpEndpoint_url_shape_witness :
    ∃ (host : String) (version : Nat) (network suffix : String),
      getHttpEndpoint ⟨none, none, none, none⟩ =
        "https://" ++ host ++ "/[node-id]/" ++ toString version ++ "/" ++ network
          ++ "/toncenter-api-v2/" ++ suffix
      ∧ ((⟨none, none, none, none⟩ : TonAccessConfig).host = none
          → host = "ton.access.orbs.network")
      ∧ ((⟨none, none, none, none⟩ : TonAccessConfig).accessVersion = none → version = 1)
      ∧ ((⟨none, none, none, none⟩ : TonAccessConfig).network = none → network = "mainnet")
      ∧ ((⟨none, none, none, none⟩ : TonAccessConfig).protocol ≠ some ProtocolFormat.rest
          → suffix = "jsonRPC") :=
  httpEndpoint_url_shape ⟨none, none, none, none⟩

/-- C3 counterexample: with protocol format rest, the built URL does
end with a trailing slash (the source keeps the slash before the
empty suffix), contradicting the claim that no trailing slash
remains. -/
theorem rest_trailing_slash_cex :
    getHttpEndpoint ⟨none, none, none, some ProtocolFormat.rest⟩
      = "https://ton.access.orbs.network/[node-id]/1/mainnet/toncenter-api-v2" ++ "/"
    ∧ getHttpEndpoint ⟨none, none, none, some ProtocolFormat.rest⟩
      ≠ "https://ton.access.orbs.network/[node-id]/1/mainnet/toncenter-api-v2" := by
  constructor
  · decide
  · decide

/-- C3 amended: with protocol format rest the jsonRPC suffix segment
is omitted entirely, but the URL keeps the trailing slash after the
protocol segment. -/
theorem rest_url_omits_suffix (c : TonAccessConfig)
    (h : c.protocol = some ProtocolFormat.rest) :
    ∃ (host : String) (version : Nat) (network : String),
      getHttpEndpoint c =
        "https://" ++ host ++ "/[node-id]/" ++ toString version ++ "/" ++ network
          ++ "/toncenter-api-v2/" := by
  refine ⟨orDefaultStr c.host "ton.access.orbs.network",
      orDefaultNat c.accessVersion 1,
      (c.network.getD Network.mainnet).label, ?_⟩
  simp [getHttpEndpoint, h]

/-- Witness for the amended C3 at a concrete rest config. -/
theorem rest_url_omits_suffix_witness :
    ∃ (host : String) (version : Nat) (network : String),
      getHttpEndpoint ⟨none, none, none, some ProtocolFormat.rest⟩ =
        "https://" ++ host ++ "/[node-id]/" ++ toString version ++ "/" ++ network
          ++ "/toncenter-api-v2/" :=
  rest_url_omits_suffix ⟨none, none, none, some ProtocolFormat.rest⟩ rfl

/-- C9: the v4 operations fail exactly when the protocol format is
json-rpc, and when they fail the error is always the
UnsupportedProtocolError message, never anything else; every other
config succeeds for both operations and both values of single. -/
theorem v4_fail_iff_jsonrpc (c : TonAccessConfig) (single : Bool) :
    ((∃ u, getHttpV4Endpoint c = Except.ok u) ↔ c.protocol ≠ some ProtocolFormat.jsonRpc)
    ∧ ((∃ us, getHttpV4Endpoints c single = Except.ok us)
        ↔ c.protocol ≠ some ProtocolFormat.jsonRpc)
    ∧ (∀ e, getHttpV4Endpoint c = Except.error e
        → e = TonAccessError.unsupportedProtocol v4UnsupportedMsg)
    ∧ (∀ e, getHttpV4Endpoints c single = Except.error e
        → e = TonAccessError.unsupportedProtocol v4UnsupportedMsg) := by
  cases single <;>
    by_cases h : c.protocol = some ProtocolFormat.jsonRpc <;>
      simp [getHttpV4Endpoint, getHttpV4Endpoints, h, Except.map]

/-- Witness for C9 at the empty config with single set. -/
theorem v4_fail_iff_jsonrpc_witness :
    ((∃ u, getHttpV4Endpoint ⟨none, none, none, none⟩ = Except.ok u)
        ↔ (⟨none, none, none, none⟩ : TonAccessConfig).protocol
            ≠ some ProtocolFormat.jsonRpc)
    ∧ ((∃ us, getHttpV4Endpoints ⟨none, none, none, none⟩ true = Except.ok us)
        ↔ (⟨none, none, none, none⟩ : TonAccessConfig).protocol
            ≠ some ProtocolFormat.jsonRpc)
    ∧ (∀ e, getHttpV4Endpoint ⟨none, none, none, none⟩ = Except.error e
        → e = TonAccessError.unsupportedProtocol v4UnsupportedMsg)
    ∧ (∀ e, getHttpV4Endpoints ⟨none, none, none, none⟩ true = Except.error e
        → e = TonAccessError.unsupportedProtocol v4UnsupportedMsg) :=
  v4_fail_iff_jsonrpc ⟨none, none, none, none⟩ true

/-- Two built URLs that differ only in the node segment, of equal
byte length, are distinct strings. -/
theorem url_mid_ne (h m₁ m₂ v n p : String)
    (hlen : m₁.data.length = m₂.data.length) (hne : m₁.data ≠ m₂.data) :
    "https://" ++ h ++ m₁ ++ v ++ "/" ++ n ++ "/toncenter-api-v2/" ++ p
      ≠ "https://" ++ h ++ m₂ ++ v ++ "/" ++ n ++ "/toncenter-api-v2/" ++ p := by
  intro heq
  apply hne
  have hd := congrArg String.data heq
  simp only [String.data_append, List.append_assoc, List.append_cancel_left_eq] at hd
  exact List.append_inj_left hd hlen

/-- C8: getHttpEndpoints with single unset returns at most the fixed
fan-out count of three URLs, and the returned URLs are pairwise
distinct (one per distinct node). -/
theorem httpEndpoints_fanout (c : TonAccessConfig) :
    (getHttpEndpoints c false).length ≤ 3 ∧ (getHttpEndpoints c false).Nodup := by
  have h12 := url_mid_ne (orDefaultStr c.host "ton.access.orbs.network") "/node1/" "/node2/"
    (toString (orDefaultNat c.accessVersion 1)) ((c.network.getD Network.mainnet).label)
    (if c.protocol = some ProtocolFormat.rest then "" else "jsonRPC")
    (by decide) (by decide)
  have h13 := url_mid_ne (orDefaultStr c.host "ton.access.orbs.network") "/node1/" "/node3/"
    (toString (orDefaultNat c.accessVersion 1)) ((c.network.getD Network.mainnet).label)
    (if c.protocol = some ProtocolFormat.rest then "" else "jsonRPC")
    (by decide) (by decide)
  have h23 := url_mid_ne (orDefaultStr c.host "ton.access.orbs.network") "/node2/" "/node3/"
    (toString (orDefaultNat c.accessVersion 1)) ((c.network.getD Network.mainnet).label)
    (if c.protocol = some ProtocolFormat.rest then "" else "jsonRPC")
    (by decide) (by decide)
  constructor
  · simp [getHttpEndpoints]
  · simp only [getHttpEndpoints, List.nodup_cons, List.mem_cons, List.mem_singleton,
      List.not_mem_nil, List.nodup_nil, not_or, not_false_eq_true, and_true,
      Bool.false_eq_true, if_false]
    exact ⟨⟨h12, h13⟩, h23⟩

/-- Specification of the weighted walk: started at a running sum acc
not above the draw, with the draw below acc plus the remaining total
weight, the walk selects the first candidate whose running
accumulated weight exceeds the draw. -/
theorem walkPick_spec (cs : List TonAccessNode) (acc draw : Nat)
    (hlo : acc ≤ draw) (hhi : draw < acc + totalWeight cs) :
    ∃ i, ∃ h : i < cs.length,
      walkPick cs acc draw = some (cs.get ⟨i, h⟩)
      ∧ draw < acc + weightUpTo cs (i + 1)
      ∧ ∀ j, j < i → acc + weightUpTo cs (j + 1) ≤ draw := by
  induction cs generalizing acc with
  | nil =>
    exfalso
    simp [totalWeight] at hhi
    omega
  | cons n rest ih =>
    by_cases hc : draw < acc + n.Weight
    · refine ⟨0, Nat.succ_pos rest.length, ?_, ?_, ?_⟩
      · simp [walkPick, hc]
      · simpa [weightUpTo, totalWeight] using hc
      · intro j hj
        omega
    · have hlo' : acc + n.Weight ≤ draw := Nat.le_of_not_lt hc
      have hhi' : draw < (acc + n.Weight) + totalWeight rest := by
        have hsum : totalWeight (n :: rest) = n.Weight + totalWeight rest := by
          simp [totalWeight]
        omega
      obtain ⟨i, hi, heq, hgt, hmin⟩ := ih (acc + n.Weight) hlo' hhi'
      refine ⟨i + 1, Nat.succ_lt_succ hi, ?_, ?_, ?_⟩
      · simpa [walkPick, hc, List.get_cons_succ] using heq
      · have hw : weightUpTo (n :: rest) (i + 1 + 1)
            = n.Weight + weightUpTo rest (i + 1) := by
          simp [weightUpTo, totalWeight]
        omega
      · intro j hj
        cases j with
        | zero =>
          have hw : weightUpTo (n :: rest) (0 + 1) = n.Weight := by
            simp [weightUpTo, totalWeight]
          omega
        | succ k =>
          have hk : k < i := by omega
          have hmk := hmin k hk
          have hw : weightUpTo (n :: rest) (k + 1 + 1)
              = n.Weight + weightUpTo rest (k + 1) := by
            simp [weightUpTo, totalWeight]
          omega

/-- C6: the selector sums the candidate weights; with total weight
zero it indexes the candidates uniformly by the random value, and
otherwise, for a draw below the total weight, it selects the first
candidate at which the running accumulated weight exceeds the
draw. -/
theorem pickOne_first_exceeding (cs : List TonAccessNode) (d : Nat) :
    (totalWeight cs = 0 → pickOne cs d = cs[d % cs.length]?)
    ∧ (d < totalWeight cs →
        ∃ i, ∃ h : i < cs.length,
          pickOne cs d = some (cs.get ⟨i, h⟩)
          ∧ d < weightUpTo cs (i + 1)
          ∧ ∀ j, j < i → weightUpTo cs (j + 1) ≤ d) := by
  constructor
  · intro h0
    simp [pickOne, h0]
  · intro hd
    have htw : ¬ totalWeight cs = 0 := by omega
    have hmod : d % totalWeight cs = d := Nat.mod_eq_of_lt hd
    obtain ⟨i, hi, heq, hgt, hmin⟩ := walkPick_spec cs 0 d (Nat.zero_le d) (by omega)
    refine ⟨i, hi, ?_, by omega, ?_⟩
    · simpa [pickOne, htw, hmod] using heq
    · intro j hj
      have hmj := hmin j hj
      omega

/-- Witness for C6 on candidates of weight 1 and 3 with draw 2: the
second candidate is selected, the first index whose accumulated
weight (4) exceeds the draw. -/
theorem pickOne_first_exceeding_witness :
    ∃ i, ∃ h : i < ([sampleNode "a" 1, sampleNode "b" 3] : List TonAccessNode).length,
      pickOne [sampleNode "a" 1, sampleNode "b" 3] 2
        = some (([sampleNode "a" 1, sampleNode "b" 3] : List TonAccessNode).get ⟨i, h⟩)
      ∧ 2 < weightUpTo [sampleNode "a" 1, sampleNode "b" 3] (i + 1)
      ∧ ∀ j, j < i → weightUpTo [sampleNode "a" 1, sampleNode "b" 3] (j + 1) ≤ 2 :=
  (pickOne_first_exceeding [sampleNode "a" 1, sampleNode "b" 3] 2).2 (by decide)
